import Mathlib

/-!
# Verification of the LinkedIn scraper service queue/orchestrator core

Shallow embedding of `src/index-docker-optimized.js`:

* `scrapeLinkedInProfile` embeds the orchestrator (lines 78-342).  The
  browser-automation driver (puppeteer: launch / newPage / setViewport /
  setExtraHTTPHeaders / authenticate / goto / waitForTimeout / evaluate /
  close) is an external collaborator; its behaviour for one job is a
  `Driver` record of outcomes.  The orchestrator returns its result
  together with the list of driver events it performed, so that session
  acquisitions and teardowns can be counted.

* The queue/scheduler (lines 19-73 `processQueue`, lines 374-413
  `app.post('/scrape')`) is embedded as a small-step machine.  The Node
  event loop is single-threaded and the drain loop suspends only while
  awaiting the orchestrator or the inter-job delay, so the machine's
  atomic steps are exactly the code between suspension points:
  `Act.post` (an HTTP submission, which runs `processQueue` up to its
  first `await`), `Act.completeScrape` (the `await scrapeLinkedInProfile`
  resumes), and `Act.completeDelay` (the `await setTimeout` resumes).

Wall-clock timestamp fields (`new Date().toISOString()`) are abstracted:
the driver carries an opaque `now` string used for the `scraped_at`
metadata, and response timestamps are not modelled.
-/

namespace Scraper

/-- `pat` is a prefix of the character list. -/
def charsPrefixOf : List Char → List Char → Bool
  | [], _ => true
  | _ :: _, [] => false
  | a :: as, b :: bs => a == b && charsPrefixOf as bs

/-- `pat` occurs somewhere in the character list. -/
def charsContains (pat : List Char) : List Char → Bool
  | [] => charsPrefixOf pat []
  | b :: bs => charsPrefixOf pat (b :: bs) || charsContains pat bs

/-- JS `s.includes(pat)`: substring containment. -/
def includesSubstr (s pat : String) : Bool :=
  charsContains pat.data s.data

/-- The profile-locator pattern checked at lines 81 and 387. -/
def profilePattern : String := "linkedin.com/in/"

/-- `PROXY_CONFIG` (lines 24-29).  `enabled` is
`!!(process.env.PROXY_ENDPOINT && process.env.PROXY_USERNAME)`;
an unset or empty environment variable is falsy. -/
structure ProxyConfig where
  endpoint : Option String
  username : Option String
  password : Option String

/-- JS truthiness of an optional environment string. -/
def envTruthy : Option String → Bool
  | none => false
  | some s => !s.isEmpty

def ProxyConfig.enabled (c : ProxyConfig) : Bool :=
  envTruthy c.endpoint && envTruthy c.username

/-- Process-wide configuration: `RATE_LIMIT_DELAY` (line 21, default
3000) and `PROXY_CONFIG`. -/
structure Config where
  delay : Nat
  proxy : ProxyConfig

/-- A queued scrape request, as built at lines 397-403. -/
structure Request where
  url : String
  extract_sections : List String
  use_proxy : Bool
  wait_time : Nat
  retry_attempts : Nat

/-- The raw body of a `POST /scrape` request (line 375); every field may
be absent. -/
structure ScrapeBody where
  url : Option String
  extract_sections : Option (List String)
  use_proxy : Option Bool
  wait_time : Option Nat
  retry_attempts : Option Nat

/-- JS `x || d` for an optional number: `undefined`/`null` and `0` are
falsy and fall back to the default. -/
def jsOrNat (o : Option Nat) (d : Nat) : Nat :=
  match o with
  | none => d
  | some n => if n = 0 then d else n

/-- The request record pushed onto the queue (lines 397-403), with the
JS `||` defaults applied. -/
def mkRequest (cfg : Config) (u : String) (b : ScrapeBody) : Request :=
  { url := u
    extract_sections :=
      b.extract_sections.getD ["basic_info", "experience", "education", "skills"]
    use_proxy := b.use_proxy.getD false
    wait_time := jsOrNat b.wait_time cfg.delay
    retry_attempts := jsOrNat b.retry_attempts 2 }

/-! ## The external browser-automation driver -/

/-- Behaviour of `page.goto` for one job: the underlying navigation
either settles (fulfilled or rejected) after `t` milliseconds, or never
settles. -/
inductive NavBehavior
  | resolvesAfter (t : Nat)
  | rejectsAfter (t : Nat) (msg : String)
  | neverResolves

/-- `page.goto(url, {timeout})` semantics: the call fails with
puppeteer's timeout error once `timeoutMs` elapse without the
navigation settling.  Returns the outcome and the elapsed time. -/
def gotoResult (nb : NavBehavior) (timeoutMs : Nat) : Except String Unit × Nat :=
  match nb with
  | .resolvesAfter t =>
    if t ≤ timeoutMs then (.ok (), t)
    else (.error ("Navigation timeout of " ++ toString timeoutMs ++ " ms exceeded"), timeoutMs)
  | .rejectsAfter t m =>
    if t ≤ timeoutMs then (.error m, t)
    else (.error ("Navigation timeout of " ++ toString timeoutMs ++ " ms exceeded"), timeoutMs)
  | .neverResolves =>
    (.error ("Navigation timeout of " ++ toString timeoutMs ++ " ms exceeded"), timeoutMs)

/-- The in-page extraction routine (lines 161-322) at the granularity of
its `try`/`catch`: the DOM reads are abstracted into either a completed
field list, or an exception thrown after some fields were already
stored. -/
inductive ExtractionBehavior
  | completes (fields : List (String × String))
  | throwsAfter (partialFields : List (String × String)) (msg : String)

/-- Behaviour of the `page.evaluate` call itself: it may reject (the
evaluation could not run), or run the in-page routine. -/
inductive EvalOutcome
  | rejects (msg : String)
  | runs (beh : ExtractionBehavior)

/-- The `data` object the in-page routine returns: extracted fields plus
the `extraction_error` note set by its `catch` (lines 316-319). -/
structure PageData where
  fields : List (String × String)
  extraction_error : Option String
deriving DecidableEq

/-- Lines 161-322: run the in-page routine.  On an extraction exception
the fields stored so far are kept and `data.extraction_error` is set to
the exception's message; the routine still returns `data`. -/
def runExtractor (beh : ExtractionBehavior) : PageData :=
  match beh with
  | .completes f => { fields := f, extraction_error := none }
  | .throwsAfter p m => { fields := p, extraction_error := some m }

/-- The orchestrator's success payload: the page data plus the metadata
attached at lines 325-327. -/
structure ProfileData where
  page : PageData
  scraped_at : String
  url : String
  user_agent : String
deriving DecidableEq

/-- One job's driver behaviour: the outcome of each puppeteer call the
orchestrator makes.  `close` is counted as an event and does not fail
(spec: idempotent from the orchestrator's perspective). -/
structure Driver where
  launch : Except String Unit
  newPage : Except String Unit
  setViewport : Except String Unit
  setExtraHTTPHeaders : Except String Unit
  authenticate : Except String Unit
  gotoBehavior : NavBehavior
  evaluate : List String → EvalOutcome
  now : String

/-- Driver events performed by one orchestrator invocation, in order.
`launchOk` marks a successful session acquisition; `goto` records the
time the navigation call took. -/
inductive DrvEv
  | launchOk
  | newPage
  | setViewport
  | setExtraHTTPHeaders
  | authenticate
  | goto (elapsedMs : Nat)
  | settle (ms : Nat)
  | evaluate
  | close
deriving DecidableEq

/-- Result of one orchestrator invocation: the value returned or error
thrown, plus the driver events performed. -/
structure ScrapeOutcome where
  result : Except String ProfileData
  events : List DrvEv

def isLaunchOk : DrvEv → Bool
  | .launchOk => true
  | _ => false

def isClose : DrvEv → Bool
  | .close => true
  | _ => false

/-- Sessions acquired during one invocation. -/
def acquisitions (evs : List DrvEv) : Nat := evs.countP isLaunchOk

/-- Session teardowns (`browser.close()`) during one invocation. -/
def teardowns (evs : List DrvEv) : Nat := evs.countP isClose

/-- The navigation timeout passed to `page.goto` (line 152). -/
def navigationTimeoutMs : Nat := 30000

/-- The body of the `try` after a successful launch (lines 125-332):
`newPage`, viewport, headers, optional proxy authentication, navigation
with timeout, the 2000 ms settle wait, `evaluate`, and the metadata
attach.  Returns the body's result and the driver events it performed. -/
def scrapeSession (cfg : ProxyConfig) (requestData : Request) (drv : Driver) :
    Except String ProfileData × List DrvEv :=
  match drv.newPage with
  | .error e => (.error e, [.newPage])
  | .ok () =>
  match drv.setViewport with
  | .error e => (.error e, [.newPage, .setViewport])
  | .ok () =>
  match drv.setExtraHTTPHeaders with
  | .error e => (.error e, [.newPage, .setViewport, .setExtraHTTPHeaders])
  | .ok () =>
  let pre : List DrvEv := [.newPage, .setViewport, .setExtraHTTPHeaders]
  let rest : List DrvEv → Except String ProfileData × List DrvEv := fun acc =>
    let (navRes, t) := gotoResult drv.gotoBehavior navigationTimeoutMs
    match navRes with
    | .error e => (.error e, acc ++ [.goto t])
    | .ok () =>
      match drv.evaluate requestData.extract_sections with
      | .rejects m => (.error m, acc ++ [.goto t, .settle 2000, .evaluate])
      | .runs beh =>
        let profileData := runExtractor beh
        (.ok { page := profileData
               scraped_at := drv.now
               url := requestData.url
               user_agent := "LinkedIn-Scraper-Service/1.0" },
         acc ++ [.goto t, .settle 2000, .evaluate])
  if requestData.use_proxy && cfg.enabled then
    match drv.authenticate with
    | .error e => (.error e, pre ++ [.authenticate])
    | .ok () => rest (pre ++ [.authenticate])
  else
    rest pre

/-- The orchestrator `scrapeLinkedInProfile` (lines 78-342).
Validation first (line 81): a falsy or non-matching `url` throws before
any driver call.  Then `puppeteer.launch`; if it fails the `catch`
wraps the error and the `finally` sees `browser` undefined, so no
`close` happens.  After a successful launch the session body runs and,
whatever its outcome, the `finally` closes the browser exactly once;
body errors are rethrown wrapped (line 336). -/
def scrapeLinkedInProfile (cfg : ProxyConfig) (requestData : Request) (drv : Driver) :
    ScrapeOutcome :=
  if requestData.url.isEmpty || !(includesSubstr requestData.url profilePattern) then
    { result := .error "Invalid LinkedIn URL provided", events := [] }
  else
    match drv.launch with
    | .error e =>
      { result := .error ("Failed to scrape LinkedIn profile: " ++ e), events := [] }
    | .ok () =>
      match scrapeSession cfg requestData drv with
      | (.ok d, evs) =>
        { result := .ok d, events := .launchOk :: evs ++ [.close] }
      | (.error e, evs) =>
        { result := .error ("Failed to scrape LinkedIn profile: " ++ e)
          events := .launchOk :: evs ++ [.close] }

/-! ## The queue/scheduler -/

/-- One queue entry (lines 395-405): the request record, the HTTP
response object it will resolve (identified here by the submission
index `id`), and the driver behaviour the environment will exhibit for
this job. -/
structure Entry where
  id : Nat
  request : Request
  drv : Driver

/-- Where the drain coroutine (`processQueue`'s body) is suspended:
awaiting `scrapeLinkedInProfile` for the dequeued entry (line 45), or
awaiting the inter-job `setTimeout` (line 67). -/
inductive DrainPc
  | scraping (e : Entry)
  | delaying

/-- The scheduler state: `requestQueue` and `isProcessing`
(lines 19-20), the active drain coroutines (the JS guard is meant to
keep at most one alive; the machine does not assume it, it is proved),
and the counter assigning submission indices. -/
structure SchedState where
  requestQueue : List Entry
  isProcessing : Bool
  drains : List DrainPc
  nextId : Nat

/-- Observable events of the scheduler. -/
inductive Ev
  | respond (status : Nat) (errMsg : String)
  | submit (e : Entry)
  | invokeStart (e : Entry)
  | invokeEnd (e : Entry)
  | resolve (id : Nat) (status : Nat) (success : Bool)
      (data : Option ProfileData) (err : Option String)
  | wait (ms : Nat)

/-- The synchronous prefix of `processQueue()` (lines 34-45): return at
once if already processing or the queue is empty; otherwise set
`isProcessing`, shift the head entry and start its orchestrator
invocation (the first `await`), spawning a drain coroutine. -/
def processQueueEnter (s : SchedState) : SchedState × List Ev :=
  if s.isProcessing || s.requestQueue.isEmpty then (s, [])
  else
    match s.requestQueue with
    | [] => (s, [])
    | e0 :: rest =>
      ({ s with requestQueue := rest
                isProcessing := true
                drains := s.drains ++ [DrainPc.scraping e0] },
       [Ev.invokeStart e0])

/-- The entry built from a validated submission (lines 396-405); its
`id` is the submission index, standing for the captured `res` object. -/
def mkEntry (cfg : Config) (s : SchedState) (u : String) (body : ScrapeBody)
    (drv : Driver) : Entry :=
  { id := s.nextId, request := mkRequest cfg u body, drv := drv }

/-- Lines 395-412 for a validated `url`: push the entry onto
`requestQueue`, then call `processQueue()` (its synchronous prefix). -/
def submitEntry (cfg : Config) (s : SchedState) (u : String) (body : ScrapeBody)
    (drv : Driver) : SchedState × List Ev :=
  let e := mkEntry cfg s u body drv
  let s1 := { s with requestQueue := s.requestQueue ++ [e], nextId := s.nextId + 1 }
  let r := processQueueEnter s1
  (r.1, Ev.submit e :: r.2)

/-- `app.post('/scrape')` (lines 374-413): validate the body's `url`
(missing/empty → 400 required; not matching the profile pattern → 400
invalid format), otherwise push the entry and call `processQueue()`. -/
def stepPost (cfg : Config) (s : SchedState) (body : ScrapeBody) (drv : Driver) :
    SchedState × List Ev :=
  match body.url with
  | none => (s, [Ev.respond 400 "LinkedIn URL is required"])
  | some u =>
    if u.isEmpty then (s, [Ev.respond 400 "LinkedIn URL is required"])
    else if !(includesSubstr u profilePattern) then
      (s, [Ev.respond 400 "Invalid LinkedIn URL format. Must be a LinkedIn profile URL."])
    else
      submitEntry cfg s u body drv

/-- External actions driving the machine: an HTTP submission, the
orchestrator invocation completing, or the inter-job delay elapsing. -/
inductive Act
  | post (body : ScrapeBody) (drv : Driver)
  | completeScrape
  | completeDelay

/-- The result delivery into the job's sink (lines 47-61): `200` with
`{success:true, data}` on success, `500` with `{success:false, error}`
when the orchestrator threw. -/
def resolveEv (e : Entry) (r : Except String ProfileData) : Ev :=
  match r with
  | .ok d => Ev.resolve e.id 200 true (some d) none
  | .error m => Ev.resolve e.id 500 false none (some m)

/-- One atomic step of the system.  `completeScrape` is the code from
the return of `await scrapeLinkedInProfile` to the next suspension
(lines 45-69): resolve the response with 200/`{success:true,data}` or
500/`{success:false,error}`; if entries remain, start the inter-job
delay, else exit the loop and clear `isProcessing`.  `completeDelay`
resumes at the `while` condition (line 40): shift and invoke the next
entry, or exit and clear the flag. -/
def step (cfg : Config) (s : SchedState) : Act → Option (SchedState × List Ev)
  | .post body drv => some (stepPost cfg s body drv)
  | .completeScrape =>
    match s.drains with
    | DrainPc.scraping e :: ds =>
      let rEv := resolveEv e (scrapeLinkedInProfile cfg.proxy e.request e.drv).result
      if s.requestQueue.isEmpty then
        some ({ s with drains := ds, isProcessing := false }, [Ev.invokeEnd e, rEv])
      else
        some ({ s with drains := DrainPc.delaying :: ds },
              [Ev.invokeEnd e, rEv, Ev.wait cfg.delay])
    | _ => none
  | .completeDelay =>
    match s.drains with
    | DrainPc.delaying :: ds =>
      match s.requestQueue with
      | [] => some ({ s with drains := ds, isProcessing := false }, [])
      | e0 :: rest =>
        some ({ s with requestQueue := rest, drains := DrainPc.scraping e0 :: ds },
              [Ev.invokeStart e0])
    | _ => none

/-- Run a sequence of actions, accumulating the event trace.  `none` if
an action is not enabled. -/
def steps (cfg : Config) : SchedState → List Act → Option (SchedState × List Ev)
  | s, [] => some (s, [])
  | s, a :: as =>
    (step cfg s a).bind fun p =>
      (steps cfg p.1 as).map fun q => (q.1, p.2 ++ q.2)

/-- The initial state (lines 19-20): empty queue, not processing. -/
def init : SchedState :=
  { requestQueue := [], isProcessing := false, drains := [], nextId := 0 }

/-! ## Trace projections and the system invariant -/

/-- Submission indices of the result resolutions in a trace, in order. -/
def resolvedIds (tr : List Ev) : List Nat :=
  tr.filterMap fun ev =>
    match ev with
    | .resolve i _ _ _ _ => some i
    | _ => none

/-- Submission indices of the accepted submissions in a trace, in order. -/
def submittedIds (tr : List Ev) : List Nat :=
  tr.filterMap fun ev =>
    match ev with
    | .submit e => some e.id
    | _ => none

/-- Indices of entries currently inside a drain coroutine (dequeued,
orchestrator running, result not yet resolved). -/
def drainIds (ds : List DrainPc) : List Nat :=
  ds.filterMap fun pc =>
    match pc with
    | .scraping e => some e.id
    | _ => none

def queueIds (q : List Entry) : List Nat := q.map Entry.id

/-- Indices of all submitted-but-unresolved entries, in processing
order: in-flight first, then the pending queue. -/
def pendingIds (s : SchedState) : List Nat :=
  drainIds s.drains ++ queueIds s.requestQueue

def isScrapingPc : DrainPc → Bool
  | .scraping _ => true
  | _ => false

/-- Number of orchestrator invocations currently in flight. -/
def activeInvocations (s : SchedState) : Nat :=
  (s.drains.filter isScrapingPc).length

/-- The inductive system invariant, relating a reachable state to the
trace that produced it. -/
structure Inv (cfg : Config) (s : SchedState) (tr : List Ev) : Prop where
  fifo : resolvedIds tr ++ pendingIds s = submittedIds tr
  range_eq : submittedIds tr = List.range s.nextId
  proc_drains : s.isProcessing = false → s.drains = []
  one_drain : s.drains.length ≤ 1
  queue_valid : ∀ e ∈ s.requestQueue, includesSubstr e.request.url profilePattern = true
  flight_valid : ∀ e, DrainPc.scraping e ∈ s.drains →
    includesSubstr e.request.url profilePattern = true
  waits : ∀ ms, Ev.wait ms ∈ tr → ms = cfg.delay

theorem resolvedIds_append (t₁ t₂ : List Ev) :
    resolvedIds (t₁ ++ t₂) = resolvedIds t₁ ++ resolvedIds t₂ :=
  List.filterMap_append ..

theorem submittedIds_append (t₁ t₂ : List Ev) :
    submittedIds (t₁ ++ t₂) = submittedIds t₁ ++ submittedIds t₂ :=
  List.filterMap_append ..

theorem inv_init (cfg : Config) : Inv cfg init [] := by
  constructor <;> simp [init, resolvedIds, submittedIds, pendingIds, drainIds, queueIds]

theorem inv_respond {cfg : Config} {s : SchedState} {tr : List Ev}
    (hI : Inv cfg s tr) (st : Nat) (m : String) :
    Inv cfg s (tr ++ [Ev.respond st m]) := by
  obtain ⟨hf, hr, hp, ho, hq, hfl, hw⟩ := hI
  refine ⟨?_, ?_, hp, ho, hq, hfl, ?_⟩
  · have h1 : resolvedIds [Ev.respond st m] = [] := rfl
    have h2 : submittedIds [Ev.respond st m] = [] := rfl
    rw [resolvedIds_append, submittedIds_append, h1, h2, List.append_nil]
    simpa using hf
  · have h2 : submittedIds [Ev.respond st m] = [] := rfl
    rw [submittedIds_append, h2, List.append_nil]
    exact hr
  · intro ms hms
    rcases List.mem_append.1 hms with h | h
    · exact hw ms h
    · simp at h

theorem submitEntry_busy {cfg : Config} {s : SchedState} (hb : s.isProcessing = true)
    (u : String) (body : ScrapeBody) (drv : Driver) :
    submitEntry cfg s u body drv =
      ({ s with requestQueue := s.requestQueue ++ [mkEntry cfg s u body drv]
                nextId := s.nextId + 1 },
       [Ev.submit (mkEntry cfg s u body drv)]) := by
  obtain ⟨q, b, d, n⟩ := s
  simp_all [submitEntry, processQueueEnter]

theorem submitEntry_idle_nil {cfg : Config} {s : SchedState}
    (hb : s.isProcessing = false) (hqq : s.requestQueue = [])
    (u : String) (body : ScrapeBody) (drv : Driver) :
    submitEntry cfg s u body drv =
      ({ s with requestQueue := []
                isProcessing := true
                drains := s.drains ++ [DrainPc.scraping (mkEntry cfg s u body drv)]
                nextId := s.nextId + 1 },
       [Ev.submit (mkEntry cfg s u body drv),
        Ev.invokeStart (mkEntry cfg s u body drv)]) := by
  obtain ⟨q, b, d, n⟩ := s
  simp_all [submitEntry, processQueueEnter]

theorem submitEntry_idle_cons {cfg : Config} {s : SchedState} {a : Entry} {q0 : List Entry}
    (hb : s.isProcessing = false) (hqq : s.requestQueue = a :: q0)
    (u : String) (body : ScrapeBody) (drv : Driver) :
    submitEntry cfg s u body drv =
      ({ s with requestQueue := q0 ++ [mkEntry cfg s u body drv]
                isProcessing := true
                drains := s.drains ++ [DrainPc.scraping a]
                nextId := s.nextId + 1 },
       [Ev.submit (mkEntry cfg s u body drv), Ev.invokeStart a]) := by
  obtain ⟨q, b, d, n⟩ := s
  simp_all [submitEntry, processQueueEnter]

theorem stepPost_inv {cfg : Config} {s : SchedState} {tr : List Ev}
    (hI : Inv cfg s tr) (body : ScrapeBody) (drv : Driver) :
    Inv cfg (stepPost cfg s body drv).1 (tr ++ (stepPost cfg s body drv).2) := by
  unfold stepPost
  cases hurl : body.url with
  | none => exact inv_respond hI 400 "LinkedIn URL is required"
  | some u =>
    cases hue : u.isEmpty with
    | true =>
      simpa [hue] using inv_respond hI 400 "LinkedIn URL is required"
    | false =>
      cases hv : includesSubstr u profilePattern with
      | false =>
        simpa [hue, hv] using
          inv_respond hI 400 "Invalid LinkedIn URL format. Must be a LinkedIn profile URL."
      | true =>
        simp only [hue, hv, Bool.not_true, Bool.false_eq_true, if_false]
        obtain ⟨hf, hr, hp, ho, hq, hfl, hw⟩ := hI
        cases hb : s.isProcessing with
        | true =>
          rw [submitEntry_busy hb u body drv]
          refine ⟨?_, ?_, ?_, ho, ?_, hfl, ?_⟩
          · have h1 : resolvedIds [Ev.submit (mkEntry cfg s u body drv)] = [] := rfl
            have h2 : submittedIds [Ev.submit (mkEntry cfg s u body drv)] = [s.nextId] := rfl
            simp only [resolvedIds_append, submittedIds_append, h1, h2, List.append_nil,
              pendingIds, queueIds, List.map_append, List.map_cons, List.map_nil]
            rw [← hf]
            simp [pendingIds, queueIds, mkEntry, List.append_assoc]
          · have h2 : submittedIds [Ev.submit (mkEntry cfg s u body drv)] = [s.nextId] := rfl
            simp only [submittedIds_append, h2]
            simp [hr, List.range_succ]
          · intro hcon
            rw [hb] at hcon
            cases hcon
          · intro e' he'
            rcases List.mem_append.1 he' with h | h
            · exact hq e' h
            · simp only [List.mem_singleton] at h
              subst h
              simpa [mkEntry, mkRequest] using hv
          · intro ms hms
            rcases List.mem_append.1 hms with h | h
            · exact hw ms h
            · simp at h
        | false =>
          have hdr : s.drains = [] := hp hb
          cases hqq : s.requestQueue with
          | nil =>
            rw [submitEntry_idle_nil hb hqq u body drv]
            have hf' : resolvedIds tr = submittedIds tr := by
              simpa [pendingIds, hdr, hqq, drainIds, queueIds] using hf
            refine ⟨?_, ?_, ?_, ?_, ?_, ?_, ?_⟩
            · have h1 : resolvedIds [Ev.submit (mkEntry cfg s u body drv),
                  Ev.invokeStart (mkEntry cfg s u body drv)] = [] := rfl
              have h2 : submittedIds [Ev.submit (mkEntry cfg s u body drv),
                  Ev.invokeStart (mkEntry cfg s u body drv)] = [s.nextId] := rfl
              simp only [resolvedIds_append, submittedIds_append, h1, h2, List.append_nil]
              simp [pendingIds, drainIds, queueIds, hdr, hf', mkEntry]
            · have h2 : submittedIds [Ev.submit (mkEntry cfg s u body drv),
                  Ev.invokeStart (mkEntry cfg s u body drv)] = [s.nextId] := rfl
              simp only [submittedIds_append, h2]
              simp [hr, List.range_succ]
            · intro hcon
              cases hcon
            · simp [hdr]
            · intro e' he'
              simp at he'
            · intro e' he'
              simp only [hdr, List.nil_append, List.mem_singleton] at he'
              have : e' = mkEntry cfg s u body drv := by
                cases he'
                rfl
              subst this
              simpa [mkEntry, mkRequest] using hv
            · intro ms hms
              rcases List.mem_append.1 hms with h | h
              · exact hw ms h
              · simp at h
          | cons a q0 =>
            rw [submitEntry_idle_cons hb hqq u body drv]
            have ha : includesSubstr a.request.url profilePattern = true :=
              hq a (by rw [hqq]; exact List.mem_cons_self a q0)
            have hf' : resolvedIds tr ++ (a.id :: queueIds q0) = submittedIds tr := by
              simpa [pendingIds, hdr, hqq, drainIds, queueIds] using hf
            refine ⟨?_, ?_, ?_, ?_, ?_, ?_, ?_⟩
            · have h1 : resolvedIds [Ev.submit (mkEntry cfg s u body drv),
                  Ev.invokeStart a] = [] := rfl
              have h2 : submittedIds [Ev.submit (mkEntry cfg s u body drv),
                  Ev.invokeStart a] = [s.nextId] := rfl
              simp only [resolvedIds_append, submittedIds_append, h1, h2, List.append_nil]
              rw [← hf']
              simp [pendingIds, drainIds, queueIds, hdr, mkEntry, List.append_assoc]
            · have h2 : submittedIds [Ev.submit (mkEntry cfg s u body drv),
                  Ev.invokeStart a] = [s.nextId] := rfl
              simp only [submittedIds_append, h2]
              simp [hr, List.range_succ]
            · intro hcon
              cases hcon
            · simp [hdr]
            · intro e' he'
              rcases List.mem_append.1 he' with h | h
              · exact hq e' (by rw [hqq]; exact List.mem_cons_of_mem a h)
              · simp only [List.mem_singleton] at h
                subst h
                simpa [mkEntry, mkRequest] using hv
            · intro e' he'
              simp only [hdr, List.nil_append, List.mem_singleton] at he'
              have : e' = a := by
                cases he'
                rfl
              subst this
              exact ha
            · intro ms hms
              rcases List.mem_append.1 hms with h | h
              · exact hw ms h
              · simp at h

theorem resolvedIds_end_resolve (e : Entry) (r : Except String ProfileData) :
    resolvedIds [Ev.invokeEnd e, resolveEv e r] = [e.id] := by
  cases r <;> rfl

theorem submittedIds_end_resolve (e : Entry) (r : Except String ProfileData) :
    submittedIds [Ev.invokeEnd e, resolveEv e r] = [] := by
  cases r <;> rfl

theorem resolvedIds_end_resolve_wait (e : Entry) (r : Except String ProfileData) (d : Nat) :
    resolvedIds [Ev.invokeEnd e, resolveEv e r, Ev.wait d] = [e.id] := by
  cases r <;> rfl

theorem submittedIds_end_resolve_wait (e : Entry) (r : Except String ProfileData) (d : Nat) :
    submittedIds [Ev.invokeEnd e, resolveEv e r, Ev.wait d] = [] := by
  cases r <;> rfl

theorem wait_mem_end_resolve (e : Entry) (r : Except String ProfileData) (ms : Nat) :
    Ev.wait ms ∈ [Ev.invokeEnd e, resolveEv e r] → False := by
  cases r <;> simp [resolveEv]

theorem wait_mem_end_resolve_wait (e : Entry) (r : Except String ProfileData) (d ms : Nat) :
    Ev.wait ms ∈ [Ev.invokeEnd e, resolveEv e r, Ev.wait d] → ms = d := by
  cases r <;> simp [resolveEv]

theorem step_inv {cfg : Config} {s : SchedState} {tr : List Ev} {a : Act}
    {s' : SchedState} {evs : List Ev}
    (h : step cfg s a = some (s', evs)) (hI : Inv cfg s tr) :
    Inv cfg s' (tr ++ evs) := by
  cases a with
  | post body drv =>
    have h' : stepPost cfg s body drv = (s', evs) := by
      simpa [step] using h
    have hres := stepPost_inv hI body drv
    rw [h'] at hres
    exact hres
  | completeScrape =>
    obtain ⟨hf, hr, hp, ho, hq, hfl, hw⟩ := hI
    cases hd : s.drains with
    | nil =>
      rw [step] at h
      rw [hd] at h
      cases h
    | cons pc ds =>
      cases pc with
      | delaying =>
        rw [step] at h
        rw [hd] at h
        cases h
      | scraping e =>
        rw [step] at h
        rw [hd] at h
        have hds : ds = [] := by
          rw [hd] at ho
          cases ds with
          | nil => rfl
          | cons x xs => simp at ho
        subst hds
        cases hqe : s.requestQueue with
        | nil =>
          rw [hqe] at h
          simp only [List.isEmpty_nil, if_true] at h
          obtain ⟨rfl, rfl⟩ := Prod.mk.injEq .. ▸ Option.some.inj h
          refine ⟨?_, ?_, ?_, ?_, ?_, ?_, ?_⟩
          · rw [resolvedIds_append, submittedIds_append, resolvedIds_end_resolve,
              submittedIds_end_resolve, List.append_nil]
            have hf' : resolvedIds tr ++ [e.id] = submittedIds tr := by
              simpa [pendingIds, hd, hqe, drainIds, queueIds] using hf
            simpa [pendingIds, drainIds, queueIds, hqe] using hf'
          · rw [submittedIds_append, submittedIds_end_resolve, List.append_nil]
            exact hr
          · intro _
            rfl
          · simp
          · intro e' he'
            simp at he'
          · intro e' he'
            cases he'
          · intro ms hms
            rcases List.mem_append.1 hms with hm | hm
            · exact hw ms hm
            · exact absurd hm (fun hh => wait_mem_end_resolve e _ ms hh)
        | cons b rest =>
          rw [hqe] at h
          simp only [List.isEmpty_cons, if_false, Bool.false_eq_true] at h
          obtain ⟨rfl, rfl⟩ := Prod.mk.injEq .. ▸ Option.some.inj h
          refine ⟨?_, ?_, ?_, ?_, ?_, ?_, ?_⟩
          · rw [resolvedIds_append, submittedIds_append, resolvedIds_end_resolve_wait,
              submittedIds_end_resolve_wait, List.append_nil]
            have hf' : resolvedIds tr ++ (e.id :: (b.id :: queueIds rest)) =
                submittedIds tr := by
              simpa [pendingIds, hd, hqe, drainIds, queueIds] using hf
            rw [← hf']
            simp [pendingIds, drainIds, queueIds, List.append_assoc]
          · rw [submittedIds_append, submittedIds_end_resolve_wait, List.append_nil]
            exact hr
          · intro hcon
            rw [hp hcon] at hd
            cases hd
          · simp
          · intro e' he'
            refine hq e' ?_
            rw [hqe]
            simpa using he'
          · intro e' he'
            simp only [List.mem_cons] at he'
            rcases he' with he' | he'
            · cases he'
            · cases he'
          · intro ms hms
            rcases List.mem_append.1 hms with hm | hm
            · exact hw ms hm
            · exact wait_mem_end_resolve_wait e _ cfg.delay ms hm
  | completeDelay =>
    obtain ⟨hf, hr, hp, ho, hq, hfl, hw⟩ := hI
    cases hd : s.drains with
    | nil =>
      rw [step] at h
      rw [hd] at h
      cases h
    | cons pc ds =>
      cases pc with
      | scraping e =>
        rw [step] at h
        rw [hd] at h
        cases h
      | delaying =>
        rw [step] at h
        rw [hd] at h
        have hds : ds = [] := by
          rw [hd] at ho
          cases ds with
          | nil => rfl
          | cons x xs => simp at ho
        subst hds
        cases hqe : s.requestQueue with
        | nil =>
          rw [hqe] at h
          obtain ⟨rfl, rfl⟩ := Prod.mk.injEq .. ▸ Option.some.inj h
          refine ⟨?_, ?_, ?_, ?_, ?_, ?_, ?_⟩
          · simpa [pendingIds, drainIds, queueIds, hd, hqe, resolvedIds_append,
              submittedIds_append, resolvedIds, submittedIds] using hf
          · simpa [submittedIds_append, submittedIds] using hr
          · intro _
            rfl
          · simp
          · intro e' he'
            simp at he'
          · intro e' he'
            cases he'
          · intro ms hms
            rcases List.mem_append.1 hms with hm | hm
            · exact hw ms hm
            · cases hm
        | cons b rest =>
          rw [hqe] at h
          obtain ⟨rfl, rfl⟩ := Prod.mk.injEq .. ▸ Option.some.inj h
          have hb' : includesSubstr b.request.url profilePattern = true :=
            hq b (by rw [hqe]; exact List.mem_cons_self b rest)
          refine ⟨?_, ?_, ?_, ?_, ?_, ?_, ?_⟩
          · have h1 : resolvedIds [Ev.invokeStart b] = [] := rfl
            have h2 : submittedIds [Ev.invokeStart b] = [] := rfl
            rw [resolvedIds_append, submittedIds_append, h1, h2, List.append_nil,
              List.append_nil]
            simpa [pendingIds, drainIds, queueIds, hd, hqe] using hf
          · have h2 : submittedIds [Ev.invokeStart b] = [] := rfl
            rw [submittedIds_append, h2, List.append_nil]
            exact hr
          · intro hcon
            rw [hp hcon] at hd
            cases hd
          · simp
          · intro e' he'
            exact hq e' (by rw [hqe]; exact List.mem_cons_of_mem b he')
          · intro e' he'
            simp only [List.mem_cons] at he'
            rcases he' with he' | he'
            · cases he'
              exact hb'
            · cases he'
          · intro ms hms
            rcases List.mem_append.1 hms with hm | hm
            · exact hw ms hm
            · simp at hm

theorem steps_inv {cfg : Config} :
    ∀ {acts : List Act} {s : SchedState} {tr : List Ev} {s' : SchedState} {evs : List Ev},
      Inv cfg s tr → steps cfg s acts = some (s', evs) → Inv cfg s' (tr ++ evs) := by
  intro acts
  induction acts with
  | nil =>
    intro s tr s' evs hI h
    simp only [steps, Option.some.injEq, Prod.mk.injEq] at h
    obtain ⟨rfl, rfl⟩ := h
    simpa using hI
  | cons a as ih =>
    intro s tr s' evs hI h
    simp only [steps] at h
    cases h1 : step cfg s a with
    | none =>
      rw [h1] at h
      simp at h
    | some p =>
      obtain ⟨s1, evs1⟩ := p
      rw [h1] at h
      simp only [Option.some_bind] at h
      cases h2 : steps cfg s1 as with
      | none =>
        rw [h2] at h
        simp at h
      | some p2 =>
        obtain ⟨s2, evs2⟩ := p2
        rw [h2] at h
        simp only [Option.map_some', Option.some.injEq, Prod.mk.injEq] at h
        obtain ⟨rfl, rfl⟩ := h
        have hI1 := step_inv h1 hI
        have hI2 := ih hI1 h2
        simpa [List.append_assoc] using hI2

/-! ## Orchestrator-level lemmas -/

theorem scrapeSession_no_launch_close (cfg : ProxyConfig) (req : Request) (drv : Driver) :
    acquisitions (scrapeSession cfg req drv).2 = 0 ∧
      teardowns (scrapeSession cfg req drv).2 = 0 := by
  unfold scrapeSession
  rcases drv.newPage with e | u
  · simp [acquisitions, teardowns, isClose, isLaunchOk]
  · rcases drv.setViewport with e | u
    · simp [acquisitions, teardowns, isClose, isLaunchOk]
    · rcases drv.setExtraHTTPHeaders with e | u
      · simp [acquisitions, teardowns, isClose, isLaunchOk]
      · cases hpx : req.use_proxy && cfg.enabled
        · simp only [hpx, Bool.false_eq_true, if_false]
          rcases hg : gotoResult drv.gotoBehavior navigationTimeoutMs with ⟨nav, t⟩
          rcases nav with e | u
          · simp [hg, acquisitions, teardowns, isClose, isLaunchOk]
          · rcases drv.evaluate req.extract_sections with m | beh <;>
              simp [hg, acquisitions, teardowns, isClose, isLaunchOk]
        · simp only [hpx, if_true]
          rcases drv.authenticate with e | u
          · simp [acquisitions, teardowns, isClose, isLaunchOk]
          · rcases hg : gotoResult drv.gotoBehavior navigationTimeoutMs with ⟨nav, t⟩
            rcases nav with e | u
            · simp [hg, acquisitions, teardowns, isClose, isLaunchOk]
            · rcases drv.evaluate req.extract_sections with m | beh <;>
                simp [hg, acquisitions, teardowns, isClose, isLaunchOk]

theorem includes_not_empty {s : String}
    (h : includesSubstr s profilePattern = true) : s.isEmpty = false := by
  cases he : s.isEmpty with
  | false => rfl
  | true =>
    rw [(String.isEmpty_iff s).mp he] at h
    exact absurd h (by decide)

theorem wrapped_ne_invalid (msg : String) :
    ("Failed to scrape LinkedIn profile: " ++ msg) ≠ "Invalid LinkedIn URL provided" := by
  intro h
  have hlen := congrArg String.length h
  rw [String.length_append] at hlen
  have h1 : ("Failed to scrape LinkedIn profile: " : String).length = 35 := rfl
  have h2 : ("Invalid LinkedIn URL provided" : String).length = 29 := rfl
  rw [h1, h2] at hlen
  omega

/-- C2: for every orchestrator invocation, the number of session
teardowns (`browser.close()` calls) equals the number of session
acquisitions (successful launches), on every exit path — extraction
success, extraction throw, navigation failure or timeout, and any
configuration-step failure — and at most one session is acquired.  In
particular when the launch itself fails, no close is ever invoked
(zero acquisitions, zero teardowns). -/
theorem session_teardown_balanced (cfg : ProxyConfig) (req : Request) (drv : Driver) :
    teardowns (scrapeLinkedInProfile cfg req drv).events =
      acquisitions (scrapeLinkedInProfile cfg req drv).events ∧
    acquisitions (scrapeLinkedInProfile cfg req drv).events ≤ 1 := by
  obtain ⟨hA, hT⟩ := scrapeSession_no_launch_close cfg req drv
  unfold scrapeLinkedInProfile
  split
  · simp [acquisitions, teardowns]
  · cases hl : drv.launch with
    | error e => simp [acquisitions, teardowns]
    | ok u =>
      cases hs : scrapeSession cfg req drv with
      | mk r evs =>
        rw [hs] at hA hT
        simp only [acquisitions, teardowns] at hA hT
        cases r <;>
          simp [acquisitions, teardowns, isClose, isLaunchOk,
            List.countP_append, List.countP_cons, hA, hT]

/-- C6: a target locator that does not match the profile pattern never
acquires a browser session and yields an invalid-target failure: the
HTTP layer answers 400 before enqueueing anything (the scheduler state
is unchanged and the only event is a 400 rejection), and the
orchestrator, given a non-matching url, throws
`Invalid LinkedIn URL provided` with an empty driver-event list — in
particular before the launch step, so no session is ever acquired. -/
theorem invalid_target_rejected_without_session :
    (∀ (cfg : Config) (s : SchedState) (body : ScrapeBody) (drv : Driver),
      body.url = none →
      stepPost cfg s body drv = (s, [Ev.respond 400 "LinkedIn URL is required"])) ∧
    (∀ (cfg : Config) (s : SchedState) (body : ScrapeBody) (drv : Driver) (u : String),
      body.url = some u → includesSubstr u profilePattern = false →
      (stepPost cfg s body drv).1 = s ∧
      ((stepPost cfg s body drv).2 = [Ev.respond 400 "LinkedIn URL is required"] ∨
       (stepPost cfg s body drv).2 =
         [Ev.respond 400 "Invalid LinkedIn URL format. Must be a LinkedIn profile URL."])) ∧
    (∀ (cfg : ProxyConfig) (req : Request) (drv : Driver),
      includesSubstr req.url profilePattern = false →
      scrapeLinkedInProfile cfg req drv =
        { result := .error "Invalid LinkedIn URL provided", events := [] }) := by
  refine ⟨?_, ?_, ?_⟩
  · intro cfg s body drv hnone
    unfold stepPost
    rw [hnone]
  · intro cfg s body drv u hu hbad
    unfold stepPost
    rw [hu]
    cases hue : u.isEmpty with
    | true => exact ⟨by simp [hue], Or.inl (by simp [hue])⟩
    | false => exact ⟨by simp [hue, hbad], Or.inr (by simp [hue, hbad])⟩
  · intro cfg req drv hbad
    unfold scrapeLinkedInProfile
    simp [hbad]

/-- C7: navigation is performed with a hard 30000 ms timeout: when the
driver's navigation never settles, the orchestrator invocation fails
with the puppeteer navigation-timeout error (wrapped by the catch) with
the navigation step consuming exactly 30000 ms — it does not hang — and
the session's close is still invoked (one teardown). -/
theorem navigation_timeout_bounded (cfg : ProxyConfig) (req : Request) (drv : Driver)
    (hv : includesSubstr req.url profilePattern = true)
    (hl : drv.launch = .ok ()) (hnp : drv.newPage = .ok ())
    (hsv : drv.setViewport = .ok ()) (hsh : drv.setExtraHTTPHeaders = .ok ())
    (hauth : (req.use_proxy && cfg.enabled) = false ∨ drv.authenticate = .ok ())
    (hg : drv.gotoBehavior = .neverResolves) :
    (scrapeLinkedInProfile cfg req drv).result =
      .error "Failed to scrape LinkedIn profile: Navigation timeout of 30000 ms exceeded" ∧
    DrvEv.goto navigationTimeoutMs ∈ (scrapeLinkedInProfile cfg req drv).events ∧
    teardowns (scrapeLinkedInProfile cfg req drv).events = 1 := by
  have hne := includes_not_empty hv
  cases hpx : req.use_proxy && cfg.enabled with
  | false =>
    have hsession : scrapeSession cfg req drv =
        (.error ("Navigation timeout of " ++ toString navigationTimeoutMs ++ " ms exceeded"),
         [.newPage, .setViewport, .setExtraHTTPHeaders, .goto navigationTimeoutMs]) := by
      unfold scrapeSession
      rw [hnp, hsv, hsh, hpx, hg]
      simp [gotoResult]
    unfold scrapeLinkedInProfile
    rw [hne, hv, hl, hsession]
    refine ⟨rfl, by simp, ?_⟩
    simp [teardowns, isClose, List.countP_append, List.countP_cons]
  | true =>
    have hau : drv.authenticate = .ok () := by
      rcases hauth with h | h
      · rw [h] at hpx
        cases hpx
      · exact h
    have hsession : scrapeSession cfg req drv =
        (.error ("Navigation timeout of " ++ toString navigationTimeoutMs ++ " ms exceeded"),
         [.newPage, .setViewport, .setExtraHTTPHeaders, .authenticate,
          .goto navigationTimeoutMs]) := by
      unfold scrapeSession
      rw [hnp, hsv, hsh, hau, hpx, hg]
      simp [gotoResult]
    unfold scrapeLinkedInProfile
    rw [hne, hv, hl, hsession]
    refine ⟨rfl, by simp, ?_⟩
    simp [teardowns, isClose, List.countP_append, List.countP_cons]

theorem scrape_ok_of_extract (cfg : ProxyConfig) (req : Request) (drv : Driver)
    (hv : includesSubstr req.url profilePattern = true)
    (hl : drv.launch = .ok ()) (hnp : drv.newPage = .ok ())
    (hsv : drv.setViewport = .ok ()) (hsh : drv.setExtraHTTPHeaders = .ok ())
    (hauth : (req.use_proxy && cfg.enabled) = false ∨ drv.authenticate = .ok ())
    (t : Nat) (hg : drv.gotoBehavior = .resolvesAfter t) (ht : t ≤ navigationTimeoutMs)
    (beh : ExtractionBehavior)
    (he : drv.evaluate req.extract_sections = .runs beh) :
    (scrapeLinkedInProfile cfg req drv).result =
      .ok { page := runExtractor beh
            scraped_at := drv.now
            url := req.url
            user_agent := "LinkedIn-Scraper-Service/1.0" } := by
  have hne := includes_not_empty hv
  have hgr : gotoResult drv.gotoBehavior navigationTimeoutMs = (.ok (), t) := by
    rw [hg]
    simp [gotoResult, ht]
  cases hpx : req.use_proxy && cfg.enabled with
  | false =>
    have hsession : scrapeSession cfg req drv =
        (.ok { page := runExtractor beh
               scraped_at := drv.now
               url := req.url
               user_agent := "LinkedIn-Scraper-Service/1.0" },
         [.newPage, .setViewport, .setExtraHTTPHeaders, .goto t, .settle 2000, .evaluate]) := by
      unfold scrapeSession
      rw [hnp, hsv, hsh, hpx, hgr, he]
      rfl
    unfold scrapeLinkedInProfile
    rw [hne, hv, hl, hsession]
    rfl
  | true =>
    have hau : drv.authenticate = .ok () := by
      rcases hauth with h | h
      · rw [h] at hpx
        cases hpx
      · exact h
    have hsession : scrapeSession cfg req drv =
        (.ok { page := runExtractor beh
               scraped_at := drv.now
               url := req.url
               user_agent := "LinkedIn-Scraper-Service/1.0" },
         [.newPage, .setViewport, .setExtraHTTPHeaders, .authenticate, .goto t,
          .settle 2000, .evaluate]) := by
      unfold scrapeSession
      rw [hnp, hsv, hsh, hau, hpx, hgr, he]
      rfl
    unfold scrapeLinkedInProfile
    rw [hne, hv, hl, hsession]
    rfl

/-- C8: a partial extraction failure is not an error: when the in-page
extraction routine throws after storing some fields, the orchestrator
returns success with the partial fields plus the `extraction_error`
note, and the scheduler resolves that job's sink with HTTP 200 and
success set to true, carrying exactly that partial payload. -/
theorem partial_extraction_resolves_success (cfg : Config) (s : SchedState) (e : Entry)
    (ds : List DrainPc) (p : List (String × String)) (m : String) (t : Nat)
    (hd : s.drains = DrainPc.scraping e :: ds)
    (hv : includesSubstr e.request.url profilePattern = true)
    (hl : e.drv.launch = .ok ()) (hnp : e.drv.newPage = .ok ())
    (hsv : e.drv.setViewport = .ok ()) (hsh : e.drv.setExtraHTTPHeaders = .ok ())
    (hauth : (e.request.use_proxy && cfg.proxy.enabled) = false ∨
      e.drv.authenticate = .ok ())
    (hg : e.drv.gotoBehavior = .resolvesAfter t) (ht : t ≤ navigationTimeoutMs)
    (he : e.drv.evaluate e.request.extract_sections = .runs (.throwsAfter p m)) :
    (scrapeLinkedInProfile cfg.proxy e.request e.drv).result =
      .ok { page := { fields := p, extraction_error := some m }
            scraped_at := e.drv.now
            url := e.request.url
            user_agent := "LinkedIn-Scraper-Service/1.0" } ∧
    (step cfg s Act.completeScrape).map Prod.snd =
      some ([Ev.invokeEnd e,
             Ev.resolve e.id 200 true
               (some { page := { fields := p, extraction_error := some m }
                       scraped_at := e.drv.now
                       url := e.request.url
                       user_agent := "LinkedIn-Scraper-Service/1.0" }) none] ++
            (if s.requestQueue.isEmpty then [] else [Ev.wait cfg.delay])) := by
  have hres := scrape_ok_of_extract cfg.proxy e.request e.drv hv hl hnp hsv hsh hauth
    t hg ht (.throwsAfter p m) he
  refine ⟨hres, ?_⟩
  simp only [step, hd]
  rw [hres]
  cases hqe : s.requestQueue with
  | nil => simp [resolveEv, runExtractor]
  | cons b rest => simp [resolveEv, runExtractor]

/-- C10: every job that enters the pending queue (and every in-flight
job) has a url matching the profile pattern, because the HTTP handler
validates before enqueueing; consequently the orchestrator's
invalid-URL branch is unreachable for dequeued jobs: on a matching url
its result is never the `Invalid LinkedIn URL provided` error. -/
theorem queued_jobs_always_valid :
    (∀ (cfg : Config) (acts : List Act) (s : SchedState) (tr : List Ev),
      steps cfg init acts = some (s, tr) →
      (∀ e ∈ s.requestQueue, includesSubstr e.request.url profilePattern = true) ∧
      (∀ e, DrainPc.scraping e ∈ s.drains →
        includesSubstr e.request.url profilePattern = true)) ∧
    (∀ (cfg : ProxyConfig) (req : Request) (drv : Driver),
      includesSubstr req.url profilePattern = true →
      (scrapeLinkedInProfile cfg req drv).result ≠
        .error "Invalid LinkedIn URL provided") := by
  constructor
  · intro cfg acts s tr h
    have hI : Inv cfg s tr := by simpa using steps_inv (inv_init cfg) h
    exact ⟨hI.queue_valid, hI.flight_valid⟩
  · intro cfg req drv hv hcon
    have hne := includes_not_empty hv
    unfold scrapeLinkedInProfile at hcon
    rw [hne, hv] at hcon
    simp only [Bool.not_true, Bool.or_false, Bool.false_eq_true, if_false] at hcon
    cases hl : drv.launch with
    | error e =>
      rw [hl] at hcon
      simp only [Except.error.injEq] at hcon
      exact wrapped_ne_invalid e hcon
    | ok u =>
      rw [hl] at hcon
      cases hs : scrapeSession cfg req drv with
      | mk r evs =>
        rw [hs] at hcon
        cases r with
        | ok d => cases hcon
        | error m =>
          simp only [Except.error.injEq] at hcon
          exact wrapped_ne_invalid m hcon

/-- C1: along every run of the system, the resolutions delivered so far
followed by the still-pending submission indices (in-flight first, then
the queue) are exactly the accepted submissions, in submission order;
the submission indices are `0, 1, …`, so resolutions happen in FIFO
order with no duplication, regardless of each job's success or
failure; and once nothing is pending, exactly one resolution has
occurred for each submission, in submission order. -/
theorem fifo_resolution_order (cfg : Config) (acts : List Act) (s : SchedState)
    (tr : List Ev) (h : steps cfg init acts = some (s, tr)) :
    resolvedIds tr ++ pendingIds s = submittedIds tr ∧
    submittedIds tr = List.range s.nextId ∧
    (pendingIds s = [] → resolvedIds tr = submittedIds tr) := by
  have hI : Inv cfg s tr := by simpa using steps_inv (inv_init cfg) h
  refine ⟨hI.fifo, hI.range_eq, ?_⟩
  intro hpe
  have := hI.fifo
  rwa [hpe, List.append_nil] at this

/-- C3: the drain entry (`processQueue`) is idempotent — a no-op
whenever the processing flag is already set or the pending queue is
empty — and in every reachable state at most one orchestrator
invocation is in flight. -/
theorem drain_idempotent_single_flight :
    (∀ s : SchedState, s.isProcessing = true ∨ s.requestQueue = [] →
      processQueueEnter s = (s, [])) ∧
    (∀ (cfg : Config) (acts : List Act) (s : SchedState) (tr : List Ev),
      steps cfg init acts = some (s, tr) → activeInvocations s ≤ 1) := by
  constructor
  · intro s hs
    unfold processQueueEnter
    rcases hs with hs | hs
    · simp [hs]
    · simp [hs]
  · intro cfg acts s tr h
    have hI : Inv cfg s tr := by simpa using steps_inv (inv_init cfg) h
    calc activeInvocations s ≤ s.drains.length := List.length_filter_le _ _
      _ ≤ 1 := hI.one_drain

/-- C4: a single job's failure never aborts the drain loop: when the
head job's orchestrator invocation throws, the loop delivers the error
into that job's sink as an HTTP 500 failure payload, keeps draining
(starts the inter-job delay), and once the delay elapses it starts the
next pending job. -/
theorem job_failure_never_aborts_drain (cfg : Config) (s : SchedState) (e : Entry)
    (ds : List DrainPc) (e2 : Entry) (rest : List Entry) (m : String)
    (hd : s.drains = DrainPc.scraping e :: ds)
    (hqe : s.requestQueue = e2 :: rest)
    (hm : (scrapeLinkedInProfile cfg.proxy e.request e.drv).result = .error m) :
    step cfg s Act.completeScrape =
      some ({ s with drains := DrainPc.delaying :: ds },
        [Ev.invokeEnd e, Ev.resolve e.id 500 false none (some m), Ev.wait cfg.delay]) ∧
    step cfg { s with drains := DrainPc.delaying :: ds } Act.completeDelay =
      some ({ s with requestQueue := rest, drains := DrainPc.scraping e2 :: ds },
        [Ev.invokeStart e2]) := by
  constructor
  · simp only [step, hd]
    rw [hm]
    simp [hqe, resolveEv]
  · simp only [step]
    simp [hqe]

/-- C5: (i) whenever a job completes while more jobs are pending, the
drain loop emits the configured inter-job wait and suspends in the
delaying phase; (ii) the processing flag is cleared by a step only when
the pending queue is empty at the moment of the check; (iii) while the
drain is active (flag set), an HTTP submission can never start an
orchestrator invocation — only the delay's expiry can — so at least the
configured delay elapses between a completion with pending work and
the next invocation start. -/
theorem inter_job_delay_enforced :
    (∀ (cfg : Config) (s : SchedState) (e : Entry) (ds : List DrainPc),
      s.drains = DrainPc.scraping e :: ds → s.requestQueue ≠ [] →
      step cfg s Act.completeScrape =
        some ({ s with drains := DrainPc.delaying :: ds },
          [Ev.invokeEnd e,
           resolveEv e (scrapeLinkedInProfile cfg.proxy e.request e.drv).result,
           Ev.wait cfg.delay])) ∧
    (∀ (cfg : Config) (s : SchedState) (a : Act) (s' : SchedState) (evs : List Ev),
      step cfg s a = some (s', evs) → s.isProcessing = true →
      s'.isProcessing = false → s'.requestQueue = []) ∧
    (∀ (cfg : Config) (s : SchedState) (body : ScrapeBody) (drv : Driver)
       (s' : SchedState) (evs : List Ev),
      s.isProcessing = true → step cfg s (Act.post body drv) = some (s', evs) →
      ∀ e, Ev.invokeStart e ∉ evs) := by
  refine ⟨?_, ?_, ?_⟩
  · intro cfg s e ds hd hne
    simp only [step, hd]
    cases hqe : s.requestQueue with
    | nil => exact absurd hqe hne
    | cons b rest => simp
  · intro cfg s a s' evs h hproc hproc'
    cases a with
    | post body drv =>
      have h' : stepPost cfg s body drv = (s', evs) := by simpa [step] using h
      exfalso
      unfold stepPost at h'
      cases hurl : body.url with
      | none =>
        rw [hurl] at h'
        have h3 : s = s' := congrArg Prod.fst h'
        rw [← h3, hproc] at hproc'
        cases hproc'
      | some u =>
        rw [hurl] at h'
        have h2 :
            (if u.isEmpty = true then
              ((s, [Ev.respond 400 "LinkedIn URL is required"]) : SchedState × List Ev)
            else if (!includesSubstr u profilePattern) = true then
              (s, [Ev.respond 400 "Invalid LinkedIn URL format. Must be a LinkedIn profile URL."])
            else submitEntry cfg s u body drv) = (s', evs) := h'
        by_cases hue : u.isEmpty = true
        · rw [if_pos hue] at h2
          have h3 : s = s' := congrArg Prod.fst h2
          rw [← h3, hproc] at hproc'
          cases hproc'
        · rw [if_neg hue] at h2
          by_cases hb : (!includesSubstr u profilePattern) = true
          · rw [if_pos hb] at h2
            have h3 : s = s' := congrArg Prod.fst h2
            rw [← h3, hproc] at hproc'
            cases hproc'
          · rw [if_neg hb] at h2
            rw [submitEntry_busy hproc u body drv] at h2
            have h3 : { s with requestQueue := s.requestQueue ++ [mkEntry cfg s u body drv]
                               nextId := s.nextId + 1 } = s' :=
              congrArg Prod.fst h2
            have h4 : s.isProcessing = false := by
              rw [← h3] at hproc'
              exact hproc'
            rw [hproc] at h4
            cases h4
    | completeScrape =>
      cases hd : s.drains with
      | nil =>
        rw [step, hd] at h
        cases h
      | cons pc ds =>
        cases pc with
        | delaying =>
          rw [step, hd] at h
          cases h
        | scraping e =>
          rw [step, hd] at h
          cases hqe : s.requestQueue with
          | nil =>
            rw [hqe] at h
            have h3 : { s with requestQueue := [], drains := ds, isProcessing := false } =
                s' := by
              have := Option.some.inj h
              exact congrArg Prod.fst this
            rw [← h3]
          | cons b rest =>
            rw [hqe] at h
            have h3 : { s with requestQueue := b :: rest
                               drains := DrainPc.delaying :: ds } = s' := by
              have h5 :
                  (if (b :: rest).isEmpty = true then
                    some ({ s with requestQueue := b :: rest, drains := ds
                                   isProcessing := false },
                      [Ev.invokeEnd e,
                       resolveEv e (scrapeLinkedInProfile cfg.proxy e.request e.drv).result])
                  else
                    some ({ s with requestQueue := b :: rest
                                   drains := DrainPc.delaying :: ds },
                      [Ev.invokeEnd e,
                       resolveEv e (scrapeLinkedInProfile cfg.proxy e.request e.drv).result,
                       Ev.wait cfg.delay])) = some (s', evs) := h
              rw [if_neg (by simp)] at h5
              exact congrArg Prod.fst (Option.some.inj h5)
            exfalso
            have h4 : s.isProcessing = false := by
              rw [← h3] at hproc'
              exact hproc'
            rw [hproc] at h4
            cases h4
    | completeDelay =>
      cases hd : s.drains with
      | nil =>
        rw [step, hd] at h
        cases h
      | cons pc ds =>
        cases pc with
        | scraping e =>
          rw [step, hd] at h
          cases h
        | delaying =>
          rw [step, hd] at h
          cases hqe : s.requestQueue with
          | nil =>
            rw [hqe] at h
            have h3 : { s with requestQueue := ([] : List Entry), drains := ds
                               isProcessing := false } = s' :=
              congrArg Prod.fst (Option.some.inj h)
            rw [← h3]
          | cons b rest =>
            rw [hqe] at h
            have h3 : { s with requestQueue := rest
                               drains := DrainPc.scraping b :: ds } = s' :=
              congrArg Prod.fst (Option.some.inj h)
            exfalso
            have h4 : s.isProcessing = false := by
              rw [← h3] at hproc'
              exact hproc'
            rw [hproc] at h4
            cases h4
  · intro cfg s body drv s' evs hproc h e
    have h' : stepPost cfg s body drv = (s', evs) := by simpa [step] using h
    unfold stepPost at h'
    cases hurl : body.url with
    | none =>
      rw [hurl] at h'
      have h3 : ([Ev.respond 400 "LinkedIn URL is required"] : List Ev) = evs :=
        congrArg Prod.snd h'
      rw [← h3]
      simp
    | some u =>
      rw [hurl] at h'
      have h2 :
          (if u.isEmpty = true then
            ((s, [Ev.respond 400 "LinkedIn URL is required"]) : SchedState × List Ev)
          else if (!includesSubstr u profilePattern) = true then
            (s, [Ev.respond 400 "Invalid LinkedIn URL format. Must be a LinkedIn profile URL."])
          else submitEntry cfg s u body drv) = (s', evs) := h'
      by_cases hue : u.isEmpty = true
      · rw [if_pos hue] at h2
        have h3 : ([Ev.respond 400 "LinkedIn URL is required"] : List Ev) = evs :=
          congrArg Prod.snd h2
        rw [← h3]
        simp
      · rw [if_neg hue] at h2
        by_cases hb : (!includesSubstr u profilePattern) = true
        · rw [if_pos hb] at h2
          have h3 :
              ([Ev.respond 400 "Invalid LinkedIn URL format. Must be a LinkedIn profile URL."] :
                List Ev) = evs :=
            congrArg Prod.snd h2
          rw [← h3]
          simp
        · rw [if_neg hb] at h2
          rw [submitEntry_busy hproc u body drv] at h2
          have h3 : ([Ev.submit (mkEntry cfg s u body drv)] : List Ev) = evs :=
            congrArg Prod.snd h2
          rw [← h3]
          simp

/-! ## The `wait_time` field is dead

Erasure normalizes every stored `wait_time` to the process-wide
default; two runs whose submissions differ only in `wait_time` erase to
the same run, so they behave identically. -/

def eraseReq (cfg : Config) (r : Request) : Request :=
  { r with wait_time := cfg.delay }

def eraseEntry (cfg : Config) (e : Entry) : Entry :=
  { e with request := eraseReq cfg e.request }

def eraseBody (b : ScrapeBody) : ScrapeBody :=
  { b with wait_time := none }

def erasePc (cfg : Config) : DrainPc → DrainPc
  | .scraping e => .scraping (eraseEntry cfg e)
  | .delaying => .delaying

def eraseState (cfg : Config) (s : SchedState) : SchedState :=
  { s with requestQueue := s.requestQueue.map (eraseEntry cfg)
           drains := s.drains.map (erasePc cfg) }

def eraseEv (cfg : Config) : Ev → Ev
  | .submit e => .submit (eraseEntry cfg e)
  | .invokeStart e => .invokeStart (eraseEntry cfg e)
  | .invokeEnd e => .invokeEnd (eraseEntry cfg e)
  | ev => ev

def eraseAct : Act → Act
  | .post body drv => .post (eraseBody body) drv
  | a => a

theorem scrape_erase (cfg : Config) (pcfg : ProxyConfig) (r : Request) (drv : Driver) :
    scrapeLinkedInProfile pcfg (eraseReq cfg r) drv = scrapeLinkedInProfile pcfg r drv := rfl

theorem mkRequest_erase (cfg : Config) (u : String) (b : ScrapeBody) :
    mkRequest cfg u (eraseBody b) = eraseReq cfg (mkRequest cfg u b) := rfl

theorem mkEntry_erase (cfg : Config) (s : SchedState) (u : String) (b : ScrapeBody)
    (drv : Driver) :
    mkEntry cfg (eraseState cfg s) u (eraseBody b) drv =
      eraseEntry cfg (mkEntry cfg s u b drv) := rfl

theorem resolveEv_erase (cfg : Config) (e : Entry) (r : Except String ProfileData) :
    resolveEv (eraseEntry cfg e) r = resolveEv e r := by
  cases r <;> rfl

theorem eraseEntry_id (cfg : Config) (e : Entry) : (eraseEntry cfg e).id = e.id := rfl

theorem eraseEntry_drv (cfg : Config) (e : Entry) : (eraseEntry cfg e).drv = e.drv := rfl

theorem eraseEntry_request (cfg : Config) (e : Entry) :
    (eraseEntry cfg e).request = eraseReq cfg e.request := rfl

theorem processQueueEnter_erase (cfg : Config) (s : SchedState) :
    processQueueEnter (eraseState cfg s) =
      (eraseState cfg (processQueueEnter s).1,
       (processQueueEnter s).2.map (eraseEv cfg)) := by
  obtain ⟨q, b, d, n⟩ := s
  unfold processQueueEnter
  cases b with
  | true => simp [eraseState]
  | false =>
    cases q with
    | nil => simp [eraseState]
    | cons a q0 => simp [eraseState, eraseEv, erasePc]

theorem submitEntry_erase (cfg : Config) (s : SchedState) (u : String) (b : ScrapeBody)
    (drv : Driver) :
    submitEntry cfg (eraseState cfg s) u (eraseBody b) drv =
      (eraseState cfg (submitEntry cfg s u b drv).1,
       (submitEntry cfg s u b drv).2.map (eraseEv cfg)) := by
  simp only [submitEntry, mkEntry_erase]
  have hq :
      ({ requestQueue := (eraseState cfg s).requestQueue ++ [eraseEntry cfg (mkEntry cfg s u b drv)],
         isProcessing := (eraseState cfg s).isProcessing,
         drains := (eraseState cfg s).drains,
         nextId := (eraseState cfg s).nextId + 1 } : SchedState) =
        eraseState cfg { requestQueue := s.requestQueue ++ [mkEntry cfg s u b drv],
                         isProcessing := s.isProcessing,
                         drains := s.drains,
                         nextId := s.nextId + 1 } := by
    simp [eraseState]
  rw [hq, processQueueEnter_erase]
  simp [eraseEv]

theorem step_erase (cfg : Config) (s : SchedState) (a : Act) :
    step cfg (eraseState cfg s) (eraseAct a) =
      Option.map (fun p => (eraseState cfg p.1, p.2.map (eraseEv cfg))) (step cfg s a) := by
  cases a with
  | post body drv =>
    simp only [eraseAct, step, Option.map_some', Option.some.injEq]
    unfold stepPost
    have hurl' : (eraseBody body).url = body.url := rfl
    rw [hurl']
    cases hurl : body.url with
    | none => simp [eraseEv]
    | some u =>
      cases hue : u.isEmpty with
      | true => simp [hue, eraseEv]
      | false =>
        cases hv : includesSubstr u profilePattern with
        | false => simp [hue, hv, eraseEv]
        | true =>
          simp only [hue, hv, Bool.not_true, Bool.false_eq_true, if_false]
          exact submitEntry_erase cfg s u body drv
  | completeScrape =>
    simp only [eraseAct]
    cases hd : s.drains with
    | nil =>
      have hd' : (eraseState cfg s).drains = [] := by simp [eraseState, hd]
      rw [step, step, hd, hd']
      rfl
    | cons pc ds =>
      cases pc with
      | delaying =>
        have hd' : (eraseState cfg s).drains = DrainPc.delaying :: ds.map (erasePc cfg) := by
          simp [eraseState, hd, erasePc]
        rw [step, step, hd, hd']
        rfl
      | scraping e =>
        have hd' : (eraseState cfg s).drains =
            DrainPc.scraping (eraseEntry cfg e) :: ds.map (erasePc cfg) := by
          simp [eraseState, hd, erasePc]
        rw [step, step, hd, hd']
        cases hqe : s.requestQueue with
        | nil =>
          have hqe' : (eraseState cfg s).requestQueue = [] := by simp [eraseState, hqe]
          rw [hqe']
          simp only [eraseEntry_request, eraseEntry_drv, scrape_erase, resolveEv_erase]
          simp [eraseState, erasePc, hqe]
          cases hres : (scrapeLinkedInProfile cfg.proxy e.request e.drv).result <;>
            simp [resolveEv, eraseEv]
        | cons b rest =>
          have hqe' : (eraseState cfg s).requestQueue =
              eraseEntry cfg b :: rest.map (eraseEntry cfg) := by
            simp [eraseState, hqe]
          rw [hqe']
          simp only [eraseEntry_request, eraseEntry_drv, scrape_erase, resolveEv_erase]
          simp [eraseState, erasePc, hqe]
          cases hres : (scrapeLinkedInProfile cfg.proxy e.request e.drv).result <;>
            simp [resolveEv, eraseEv]
  | completeDelay =>
    simp only [eraseAct]
    cases hd : s.drains with
    | nil =>
      have hd' : (eraseState cfg s).drains = [] := by simp [eraseState, hd]
      rw [step, step, hd, hd']
      rfl
    | cons pc ds =>
      cases pc with
      | scraping e =>
        have hd' : (eraseState cfg s).drains =
            DrainPc.scraping (eraseEntry cfg e) :: ds.map (erasePc cfg) := by
          simp [eraseState, hd, erasePc]
        rw [step, step, hd, hd']
        rfl
      | delaying =>
        have hd' : (eraseState cfg s).drains = DrainPc.delaying :: ds.map (erasePc cfg) := by
          simp [eraseState, hd, erasePc]
        rw [step, step, hd, hd']
        cases hqe : s.requestQueue with
        | nil =>
          have hqe' : (eraseState cfg s).requestQueue = [] := by simp [eraseState, hqe]
          rw [hqe']
          simp [eraseState, hqe]
        | cons b rest =>
          have hqe' : (eraseState cfg s).requestQueue =
              eraseEntry cfg b :: rest.map (eraseEntry cfg) := by
            simp [eraseState, hqe]
          rw [hqe']
          simp [eraseState, eraseEv, hqe, erasePc]

theorem steps_erase (cfg : Config) :
    ∀ (acts : List Act) (s : SchedState),
      steps cfg (eraseState cfg s) (acts.map eraseAct) =
        Option.map (fun p => (eraseState cfg p.1, p.2.map (eraseEv cfg)))
          (steps cfg s acts) := by
  intro acts
  induction acts with
  | nil => intro s; simp [steps]
  | cons a as ih =>
    intro s
    simp only [List.map_cons, steps]
    rw [step_erase]
    cases h1 : step cfg s a with
    | none => rfl
    | some p =>
      obtain ⟨s1, evs1⟩ := p
      simp only [Option.map_some', Option.some_bind]
      rw [ih s1]
      cases h2 : steps cfg s1 as with
      | none => rfl
      | some p2 =>
        obtain ⟨s2, evs2⟩ := p2
        simp [List.map_append]

theorem eraseState_init (cfg : Config) : eraseState cfg init = init := rfl

/-- C9: the per-job `wait_time` field is accepted and stored in the
queued request (with the JS default), but never consulted: normalizing
every `wait_time` (erasure) commutes with execution, so two runs whose
submissions differ only in `wait_time` values produce the same states
and traces up to the stored field; and every inter-job wait in any run
is exactly the process-wide `RATE_LIMIT_DELAY`, regardless of any
job's `wait_time`. -/
theorem wait_time_field_inert :
    (∀ (cfg : Config) (u : String) (body : ScrapeBody),
      (mkRequest cfg u body).wait_time = jsOrNat body.wait_time cfg.delay) ∧
    (∀ (cfg : Config) (acts : List Act),
      steps cfg init (acts.map eraseAct) =
        Option.map (fun p => (eraseState cfg p.1, p.2.map (eraseEv cfg)))
          (steps cfg init acts)) ∧
    (∀ (cfg : Config) (acts : List Act) (s : SchedState) (tr : List Ev),
      steps cfg init acts = some (s, tr) → ∀ ms, Ev.wait ms ∈ tr → ms = cfg.delay) := by
  refine ⟨fun _ _ _ => rfl, ?_, ?_⟩
  · intro cfg acts
    rw [← eraseState_init cfg]
    exact steps_erase cfg acts init
  · intro cfg acts s tr h
    have hI : Inv cfg s tr := by simpa using steps_inv (inv_init cfg) h
    exact hI.waits

/-! ## Concrete executions -/

def demoProxy : ProxyConfig := { endpoint := none, username := none, password := none }

def demoCfg : Config := { delay := 3000, proxy := demoProxy }

def demoUrl : String := "https://linkedin.com/in/jane"

/-- A driver whose every call succeeds instantly. -/
def demoDriver : Driver :=
  { launch := .ok ()
    newPage := .ok ()
    setViewport := .ok ()
    setExtraHTTPHeaders := .ok ()
    authenticate := .ok ()
    gotoBehavior := .resolvesAfter 100
    evaluate := fun _ => .runs (.completes [("name", "Jane")])
    now := "2026-10-11T00:00:00.000Z" }

def demoBody : ScrapeBody :=
  { url := some demoUrl, extract_sections := none, use_proxy := none,
    wait_time := none, retry_attempts := none }

def demoBadBody : ScrapeBody :=
  { url := some "https://example.com", extract_sections := none, use_proxy := none,
    wait_time := none, retry_attempts := none }

def demoReq : Request := mkRequest demoCfg demoUrl demoBody

def demoBadReq : Request := mkRequest demoCfg "https://example.com" demoBody

def demoFailDriver : Driver := { demoDriver with launch := .error "boom" }

def demoTimeoutDriver : Driver := { demoDriver with gotoBehavior := .neverResolves }

def demoPartialDriver : Driver :=
  { demoDriver with
    evaluate := fun _ => .runs (.throwsAfter [("name", "Jane")] "selector error") }

def demoEntryFail : Entry := { id := 0, request := demoReq, drv := demoFailDriver }

def demoEntry2 : Entry := { id := 1, request := demoReq, drv := demoDriver }

def demoEntryPartial : Entry := { id := 0, request := demoReq, drv := demoPartialDriver }

def demoActs : List Act := [Act.post demoBody demoDriver, Act.completeScrape]

def demoActs2 : List Act := [Act.post demoBody demoDriver, Act.post demoBody demoDriver]

def demoActs3 : List Act :=
  [Act.post demoBody demoDriver, Act.post demoBody demoDriver, Act.completeScrape]

def demoRun : SchedState × List Ev := (steps demoCfg init demoActs).getD (init, [])

def demoRun2 : SchedState × List Ev := (steps demoCfg init demoActs2).getD (init, [])

def demoRun3 : SchedState × List Ev := (steps demoCfg init demoActs3).getD (init, [])

/-- A drain suspended on the failing job with one more job pending. -/
def demoStateC4 : SchedState :=
  { requestQueue := [demoEntry2], isProcessing := true,
    drains := [DrainPc.scraping demoEntryFail], nextId := 2 }

/-- A drain suspended in the inter-job delay with an empty queue. -/
def demoStateDelay : SchedState :=
  { requestQueue := [], isProcessing := true, drains := [DrainPc.delaying], nextId := 2 }

def demoStateDelayDone : SchedState :=
  { demoStateDelay with drains := [], isProcessing := false }

/-- A drain suspended on the partial-extraction job. -/
def demoStateC8 : SchedState :=
  { requestQueue := [], isProcessing := true,
    drains := [DrainPc.scraping demoEntryPartial], nextId := 1 }

def demoPost : SchedState × List Ev := stepPost demoCfg demoStateC4 demoBody demoDriver

def demoNoneBody : ScrapeBody :=
  { url := none, extract_sections := none, use_proxy := none,
    wait_time := none, retry_attempts := none }

/-- Witness for C1 at a concrete submit-then-complete run. -/
theorem fifo_resolution_order_witness :
    steps demoCfg init demoActs = some demoRun ∧
    (resolvedIds demoRun.2 ++ pendingIds demoRun.1 = submittedIds demoRun.2 ∧
     submittedIds demoRun.2 = List.range demoRun.1.nextId ∧
     (pendingIds demoRun.1 = [] → resolvedIds demoRun.2 = submittedIds demoRun.2)) :=
  ⟨rfl, fifo_resolution_order demoCfg demoActs demoRun.1 demoRun.2 rfl⟩

/-- Witness for C3 at the initial state and a concrete run. -/
theorem drain_idempotent_single_flight_witness :
    (init.isProcessing = true ∨ init.requestQueue = []) ∧
    processQueueEnter init = (init, []) ∧
    steps demoCfg init demoActs = some demoRun ∧
    activeInvocations demoRun.1 ≤ 1 :=
  ⟨Or.inr rfl,
   drain_idempotent_single_flight.1 init (Or.inr rfl),
   rfl,
   drain_idempotent_single_flight.2 demoCfg demoActs demoRun.1 demoRun.2 rfl⟩

/-- Witness for C4: the head job's launch fails, the sink gets a 500,
and the next job starts after the delay. -/
theorem job_failure_never_aborts_drain_witness :
    demoStateC4.drains = DrainPc.scraping demoEntryFail :: [] ∧
    demoStateC4.requestQueue = demoEntry2 :: [] ∧
    (scrapeLinkedInProfile demoCfg.proxy demoEntryFail.request demoEntryFail.drv).result =
      .error "Failed to scrape LinkedIn profile: boom" ∧
    step demoCfg demoStateC4 Act.completeScrape =
      some ({ demoStateC4 with drains := DrainPc.delaying :: [] },
        [Ev.invokeEnd demoEntryFail,
         Ev.resolve demoEntryFail.id 500 false none
           (some "Failed to scrape LinkedIn profile: boom"),
         Ev.wait demoCfg.delay]) ∧
    step demoCfg { demoStateC4 with drains := DrainPc.delaying :: [] } Act.completeDelay =
      some ({ demoStateC4 with requestQueue := [], drains := DrainPc.scraping demoEntry2 :: [] },
        [Ev.invokeStart demoEntry2]) := by
  have h := job_failure_never_aborts_drain demoCfg demoStateC4 demoEntryFail []
    demoEntry2 [] "Failed to scrape LinkedIn profile: boom" rfl rfl rfl
  exact ⟨rfl, rfl, rfl, h.1, h.2⟩

/-- Witness for C5 at concrete mid-drain states. -/
theorem inter_job_delay_enforced_witness :
    (demoStateC4.drains = DrainPc.scraping demoEntryFail :: [] ∧
     demoStateC4.requestQueue ≠ [] ∧
     step demoCfg demoStateC4 Act.completeScrape =
       some ({ demoStateC4 with drains := DrainPc.delaying :: [] },
         [Ev.invokeEnd demoEntryFail,
          resolveEv demoEntryFail
            (scrapeLinkedInProfile demoCfg.proxy demoEntryFail.request
              demoEntryFail.drv).result,
          Ev.wait demoCfg.delay])) ∧
    (step demoCfg demoStateDelay Act.completeDelay = some (demoStateDelayDone, []) ∧
     demoStateDelay.isProcessing = true ∧
     demoStateDelayDone.isProcessing = false ∧
     demoStateDelayDone.requestQueue = []) ∧
    (demoStateC4.isProcessing = true ∧
     step demoCfg demoStateC4 (Act.post demoBody demoDriver) =
       some (demoPost.1, demoPost.2) ∧
     Ev.invokeStart demoEntry2 ∉ demoPost.2) := by
  refine ⟨⟨rfl, List.cons_ne_nil _ _, ?_⟩, ⟨rfl, rfl, rfl, ?_⟩, rfl, rfl, ?_⟩
  · exact inter_job_delay_enforced.1 demoCfg demoStateC4 demoEntryFail [] rfl
      (List.cons_ne_nil _ _)
  · exact inter_job_delay_enforced.2.1 demoCfg demoStateDelay Act.completeDelay
      demoStateDelayDone [] rfl rfl rfl
  · exact inter_job_delay_enforced.2.2 demoCfg demoStateC4 demoBody demoDriver
      demoPost.1 demoPost.2 rfl rfl demoEntry2

/-- Witness for C6: a missing url and a non-matching url. -/
theorem invalid_target_rejected_without_session_witness :
    demoNoneBody.url = none ∧
    stepPost demoCfg init demoNoneBody demoDriver =
      (init, [Ev.respond 400 "LinkedIn URL is required"]) ∧
    demoBadBody.url = some "https://example.com" ∧
    includesSubstr "https://example.com" profilePattern = false ∧
    ((stepPost demoCfg init demoBadBody demoDriver).1 = init ∧
     ((stepPost demoCfg init demoBadBody demoDriver).2 =
        [Ev.respond 400 "LinkedIn URL is required"] ∨
      (stepPost demoCfg init demoBadBody demoDriver).2 =
        [Ev.respond 400 "Invalid LinkedIn URL format. Must be a LinkedIn profile URL."])) ∧
    includesSubstr demoBadReq.url profilePattern = false ∧
    scrapeLinkedInProfile demoCfg.proxy demoBadReq demoDriver =
      { result := .error "Invalid LinkedIn URL provided", events := [] } :=
  ⟨rfl,
   invalid_target_rejected_without_session.1 demoCfg init demoNoneBody demoDriver rfl,
   rfl,
   by decide,
   invalid_target_rejected_without_session.2.1 demoCfg init demoBadBody demoDriver
     "https://example.com" rfl (by decide),
   by decide,
   invalid_target_rejected_without_session.2.2 demoCfg.proxy demoBadReq demoDriver
     (by decide)⟩

/-- Witness for C7: a driver whose navigation never settles. -/
theorem navigation_timeout_bounded_witness :
    includesSubstr demoReq.url profilePattern = true ∧
    demoTimeoutDriver.launch = Except.ok () ∧
    ((scrapeLinkedInProfile demoCfg.proxy demoReq demoTimeoutDriver).result =
       .error "Failed to scrape LinkedIn profile: Navigation timeout of 30000 ms exceeded" ∧
     DrvEv.goto navigationTimeoutMs ∈
       (scrapeLinkedInProfile demoCfg.proxy demoReq demoTimeoutDriver).events ∧
     teardowns (scrapeLinkedInProfile demoCfg.proxy demoReq demoTimeoutDriver).events = 1) :=
  ⟨by decide, rfl,
   navigation_timeout_bounded demoCfg.proxy demoReq demoTimeoutDriver (by decide)
     rfl rfl rfl rfl (Or.inl rfl) rfl⟩

/-- Witness for C8: the extractor throws after a partial result; the
job resolves 200 with the partial payload and the error note. -/
theorem partial_extraction_resolves_success_witness :
    demoStateC8.drains = DrainPc.scraping demoEntryPartial :: [] ∧
    includesSubstr demoEntryPartial.request.url profilePattern = true ∧
    ((scrapeLinkedInProfile demoCfg.proxy demoEntryPartial.request
        demoEntryPartial.drv).result =
       .ok { page := { fields := [("name", "Jane")], extraction_error := some "selector error" },
             scraped_at := demoEntryPartial.drv.now,
             url := demoEntryPartial.request.url,
             user_agent := "LinkedIn-Scraper-Service/1.0" } ∧
     (step demoCfg demoStateC8 Act.completeScrape).map Prod.snd =
       some ([Ev.invokeEnd demoEntryPartial,
              Ev.resolve demoEntryPartial.id 200 true
                (some { page := { fields := [("name", "Jane")],
                                  extraction_error := some "selector error" },
                        scraped_at := demoEntryPartial.drv.now,
                        url := demoEntryPartial.request.url,
                        user_agent := "LinkedIn-Scraper-Service/1.0" }) none] ++
             (if demoStateC8.requestQueue.isEmpty then [] else [Ev.wait demoCfg.delay]))) :=
  ⟨rfl, by decide,
   partial_extraction_resolves_success demoCfg demoStateC8 demoEntryPartial []
     [("name", "Jane")] "selector error" 100 rfl (by decide) rfl rfl rfl rfl
     (Or.inl rfl) rfl (by decide) rfl⟩

/-- Witness for C9 at a run containing an inter-job wait. -/
theorem wait_time_field_inert_witness :
    (mkRequest demoCfg demoUrl demoBody).wait_time =
      jsOrNat demoBody.wait_time demoCfg.delay ∧
    steps demoCfg init (demoActs3.map eraseAct) =
      Option.map (fun p => (eraseState demoCfg p.1, p.2.map (eraseEv demoCfg)))
        (steps demoCfg init demoActs3) ∧
    steps demoCfg init demoActs3 = some demoRun3 ∧
    Ev.wait 3000 ∈ demoRun3.2 ∧
    (3000 : Nat) = demoCfg.delay := by
  have hmem : Ev.wait 3000 ∈ demoRun3.2 :=
    List.Mem.tail _ (List.Mem.tail _ (List.Mem.tail _ (List.Mem.tail _
      (List.Mem.tail _ (List.Mem.head _)))))
  exact ⟨wait_time_field_inert.1 demoCfg demoUrl demoBody,
    wait_time_field_inert.2.1 demoCfg demoActs3,
    rfl, hmem,
    wait_time_field_inert.2.2 demoCfg demoActs3 demoRun3.1 demoRun3.2 rfl 3000 hmem⟩

/-- Witness for C10 at a run that leaves one job queued. -/
theorem queued_jobs_always_valid_witness :
    steps demoCfg init demoActs2 = some demoRun2 ∧
    demoEntry2 ∈ demoRun2.1.requestQueue ∧
    includesSubstr demoEntry2.request.url profilePattern = true ∧
    includesSubstr demoReq.url profilePattern = true ∧
    (scrapeLinkedInProfile demoCfg.proxy demoReq demoDriver).result ≠
      .error "Invalid LinkedIn URL provided" := by
  have hmem : demoEntry2 ∈ demoRun2.1.requestQueue := List.Mem.head _
  exact ⟨rfl, hmem,
    (queued_jobs_always_valid.1 demoCfg demoActs2 demoRun2.1 demoRun2.2 rfl).1
      demoEntry2 hmem,
    by decide,
    queued_jobs_always_valid.2 demoCfg.proxy demoReq demoDriver (by decide)⟩

end Scraper
